import Mathlib

/-!
Verification of the `list_cloud_run_services` tool from
`src/gcp_devops_agent/main.py`.

The Python function builds the scope string
`f"projects/{project_id}/locations/{region}"`, asks the Cloud Run client
for the services under that scope, and either

* maps every returned descriptor name through `name.split('/')[-1]` and
  returns `{"services": names}` (with an extra informational message when
  the list is empty), or
* catches a provider exception and returns `{"error": msg}` where `msg`
  depends on the exception class.

We embed the provider as an abstract function from the queried scope
string to an outcome (a descriptor list, or one of the fault categories
the `except` clauses distinguish), and the returned Python dictionary as
a record with the three optional keys the function can emit.
-/

namespace GcpDevopsAgent

/-- A provider-returned service descriptor; the only field the tool
consumes is the fully qualified resource name. -/
structure ServiceDescriptor where
  name : String
  deriving DecidableEq, Repr

/-- What a single call to `run_client.list_services(parent=...)` can do:
return a finite list of descriptors, or raise one of the fault
categories distinguished by the `except` clauses
(`PermissionDenied`, `NotFound`, or any other exception carrying a
description string). -/
inductive ProviderOutcome where
  | ok (services : List ServiceDescriptor)
  | permissionDenied
  | notFound
  | unexpected (description : String)
  deriving DecidableEq, Repr

/-- The dictionary returned by the Python function, as a record of the
three keys it can carry: `services`, `message`, `error`.  A key absent
from the returned dict is `none`. -/
structure ToolResult where
  services : Option (List String) := none
  message : Option String := none
  error : Option String := none
  deriving DecidableEq, Repr

/-- Python's `str.split(sep)` for a one-character separator, on the
character list of the string: `[] ↦ [[]]`, and each occurrence of the
separator starts a new segment.  Matches CPython semantics, e.g.
`"".split('/') = [""]`, `"a//b".split('/') = ["a","","b"]`. -/
def splitOnChar (c : Char) : List Char → List (List Char)
  | [] => [[]]
  | x :: xs =>
    match splitOnChar c xs with
    | [] => [[]]
    | seg :: rest => if x = c then [] :: seg :: rest else (x :: seg) :: rest

/-- Line 37 of `main.py`: `service.name.split('/')[-1]` — the last
segment of the name split on `'/'`. -/
def shortName (s : String) : String :=
  String.mk ((splitOnChar (Char.ofNat 47) s.data).getLastD [])

/-- Line 45 of `main.py`: the fixed guidance string returned on a
permission-denied fault.  It takes no arguments. -/
def permissionDeniedMessage : String :=
  "Permission denied. Please ensure the agent has the \x27Cloud Run Viewer\x27 role."

/-- Line 47 of `main.py`: the not-found message, interpolating the
requested project and region. -/
def notFoundMessage (project_id region : String) : String :=
  "Project \x27" ++ project_id ++ "\x27 or region \x27" ++ region ++ "\x27 not found."

/-- Line 49 of `main.py`: the catch-all message, interpolating the
fault's own description text `str(e)`. -/
def unexpectedMessage (description : String) : String :=
  "An unexpected error occurred: " ++ description

/-- Line 40 of `main.py`: the informational note attached to an empty
success result. -/
def noServicesMessage : String := "No Cloud Run services found."

/-- Line 33 of `main.py`: `parent = f"projects/{project_id}/locations/{region}"`. -/
def scopeString (project_id region : String) : String :=
  "projects/" ++ project_id ++ "/locations/" ++ region

/-- Lines 35-49 of `main.py` after the provider call: turn the
provider's outcome into the returned dictionary. -/
def handleOutcome (project_id region : String) : ProviderOutcome → ToolResult
  | ProviderOutcome.ok services =>
    let service_names := services.map (fun service => shortName service.name)
    if service_names.isEmpty then
      { services := some [], message := some noServicesMessage }
    else
      { services := some service_names }
  | ProviderOutcome.permissionDenied =>
    { error := some permissionDeniedMessage }
  | ProviderOutcome.notFound =>
    { error := some (notFoundMessage project_id region) }
  | ProviderOutcome.unexpected description =>
    { error := some (unexpectedMessage description) }

/-- The whole tool (lines 20-49 of `main.py`): build the scope string,
query the provider once with it, and convert the outcome to the result
dictionary. -/
def list_cloud_run_services (provider : String → ProviderOutcome)
    (project_id region : String) : ToolResult :=
  handleOutcome project_id region (provider (scopeString project_id region))

/-- `sub` occurs contiguously inside `s`. -/
def containsSubstring (s sub : String) : Prop :=
  ∃ a b : List Char, s.data = a ++ sub.data ++ b

/-- `seg` is exactly the text after the last `'/'` of `full`. -/
def isTextAfterLastSlash (full seg : String) : Prop :=
  (∃ pre : List Char, full.data = pre ++ (Char.ofNat 47) :: seg.data) ∧
    (Char.ofNat 47) ∉ seg.data

/-- The outcomes that correspond to a raised provider exception. -/
def ProviderOutcome.isFault : ProviderOutcome → Bool
  | ProviderOutcome.ok _ => false
  | _ => true

/-- Concrete provider that returns the given descriptors for every scope. -/
def okProvider (descs : List ServiceDescriptor) : String → ProviderOutcome :=
  fun _ => ProviderOutcome.ok descs

/-- Concrete provider that raises a permission fault for every scope. -/
def permissionDeniedProvider : String → ProviderOutcome :=
  fun _ => ProviderOutcome.permissionDenied

/-- Concrete provider that raises a not-found fault for every scope. -/
def notFoundProvider : String → ProviderOutcome :=
  fun _ => ProviderOutcome.notFound

/-- Concrete provider that raises a generic fault for every scope. -/
def unexpectedProvider (description : String) : String → ProviderOutcome :=
  fun _ => ProviderOutcome.unexpected description

lemma splitOnChar_ne_nil (c : Char) (l : List Char) : splitOnChar c l ≠ [] := by
  cases l with
  | nil => simp [splitOnChar]
  | cons x xs =>
    simp only [splitOnChar]
    cases h : splitOnChar c xs with
    | nil => simp
    | cons seg rest => by_cases hx : x = c <;> simp [hx]

lemma splitOnChar_of_not_mem (c : Char) (l : List Char) (h : c ∉ l) :
    splitOnChar c l = [l] := by
  induction l with
  | nil => rfl
  | cons x xs ih =>
    rw [List.mem_cons, not_or] at h
    simp only [splitOnChar, ih h.2]
    rw [if_neg fun hx => h.1 hx.symm]

lemma splitOnChar_length_of_mem (c : Char) (l : List Char) (h : c ∈ l) :
    2 ≤ (splitOnChar c l).length := by
  induction l with
  | nil => cases h
  | cons x xs ih =>
    simp only [splitOnChar]
    cases hs : splitOnChar c xs with
    | nil => exact absurd hs (splitOnChar_ne_nil c xs)
    | cons seg rest =>
      by_cases hx : x = c
      · simp [hx]
      · rcases List.mem_cons.mp h with h1 | h2
        · exact absurd h1.symm hx
        · have h3 := ih h2
          rw [hs] at h3
          simp only [List.length_cons] at h3
          simp [hx]
          omega

lemma getLastD_irrel {α : Type} (l : List α) (h : l ≠ []) (d e : α) :
    l.getLastD d = l.getLastD e := by
  cases l with
  | nil => exact absurd rfl h
  | cons x xs => rw [List.getLastD_cons, List.getLastD_cons]

lemma splitOnChar_cons_eq (c x : Char) (xs seg : List Char)
    (rest : List (List Char)) (h : splitOnChar c xs = seg :: rest) :
    splitOnChar c (x :: xs) =
      if x = c then [] :: seg :: rest else (x :: seg) :: rest := by
  simp only [splitOnChar, h]

lemma splitOnChar_getLastD_append (c : Char) (a b : List Char) (hb : c ∉ b) :
    (splitOnChar c (a ++ c :: b)).getLastD [] = b := by
  induction a with
  | nil =>
    rw [List.nil_append,
      splitOnChar_cons_eq c c b b [] (splitOnChar_of_not_mem c b hb), if_pos rfl,
      List.getLastD_cons, List.getLastD_cons]
    rfl
  | cons x a ih =>
    have hmem : c ∈ a ++ c :: b := by simp
    have h2 := splitOnChar_length_of_mem c (a ++ c :: b) hmem
    cases hs : splitOnChar c (a ++ c :: b) with
    | nil => exact absurd hs (splitOnChar_ne_nil c _)
    | cons seg rest =>
      rw [hs] at h2
      cases rest with
      | nil => simp at h2
      | cons r t =>
        rw [hs] at ih
        rw [List.cons_append, splitOnChar_cons_eq c x (a ++ c :: b) seg (r :: t) hs]
        by_cases hx : x = c
        · rw [if_pos hx, List.getLastD_cons]
          exact ih
        · rw [if_neg hx, List.getLastD_cons,
            getLastD_irrel (r :: t) (by simp) (x :: seg) seg]
          rw [List.getLastD_cons] at ih
          exact ih

lemma exists_last_occurrence (c : Char) (l : List Char) (h : c ∈ l) :
    ∃ pre b : List Char, l = pre ++ c :: b ∧ c ∉ b := by
  induction l with
  | nil => cases h
  | cons x xs ih =>
    by_cases hc : c ∈ xs
    · obtain ⟨pre, b, hl, hb⟩ := ih hc
      exact ⟨x :: pre, b, by rw [hl, List.cons_append], hb⟩
    · rcases List.mem_cons.mp h with h1 | h2
      · exact ⟨[], xs, by rw [h1, List.nil_append], hc⟩
      · exact absurd h2 hc

lemma shortName_of_no_slash (s : String) (h : (Char.ofNat 47) ∉ s.data) :
    shortName s = s := by
  unfold shortName
  rw [splitOnChar_of_not_mem _ _ h, List.getLastD_cons]
  cases s
  rfl

lemma shortName_after_last_slash (s : String) (h : (Char.ofNat 47) ∈ s.data) :
    isTextAfterLastSlash s (shortName s) := by
  obtain ⟨pre, b, hl, hb⟩ := exists_last_occurrence (Char.ofNat 47) s.data h
  have hsn : (shortName s).data = b := by
    unfold shortName
    rw [hl, splitOnChar_getLastD_append _ _ _ hb]
  exact ⟨⟨pre, by rw [hl, hsn]⟩, by rw [hsn]; exact hb⟩

/-- C1: for every call in which the provider returns N descriptors whose
resource names are slash-delimited, the result is a success whose
`services` sequence has exactly N names, in exactly the provider's order
with no sorting and no de-duplication, the i-th name being the text
after the last slash of the i-th descriptor's resource name. -/
theorem C1_success_lists_last_segments_in_order
    (provider : String → ProviderOutcome) (project_id region : String)
    (descs : List ServiceDescriptor)
    (hprov : provider (scopeString project_id region) = ProviderOutcome.ok descs)
    (hwf : ∀ d ∈ descs, (Char.ofNat 47) ∈ d.name.data) :
    ∃ names : List String,
      (list_cloud_run_services provider project_id region).services = some names ∧
      (list_cloud_run_services provider project_id region).error = none ∧
      names.length = descs.length ∧
      List.Forall₂ (fun d n => isTextAfterLastSlash d.name n) descs names := by
  refine ⟨descs.map (fun service => shortName service.name), ?_, ?_, ?_, ?_⟩
  · unfold list_cloud_run_services
    rw [hprov]
    simp only [handleOutcome]
    by_cases he : (descs.map fun service => shortName service.name).isEmpty
    · rw [if_pos he]
      rw [List.isEmpty_iff.mp he]
    · rw [if_neg he]
  · unfold list_cloud_run_services
    rw [hprov]
    simp only [handleOutcome]
    by_cases he : (descs.map fun service => shortName service.name).isEmpty
    · rw [if_pos he]
    · rw [if_neg he]
  · exact List.length_map descs _
  · rw [List.forall₂_map_right_iff, List.forall₂_same]
    intro d hd
    exact shortName_after_last_slash d.name (hwf d hd)

/-- C1 witness at a concrete provider returning two well-formed names. -/
theorem C1_witness :
    ∃ names : List String,
      (list_cloud_run_services
        (okProvider [ServiceDescriptor.mk "projects/p/locations/r/services/api",
          ServiceDescriptor.mk "projects/p/locations/r/services/web"]) "p" "r").services =
        some names ∧
      (list_cloud_run_services
        (okProvider [ServiceDescriptor.mk "projects/p/locations/r/services/api",
          ServiceDescriptor.mk "projects/p/locations/r/services/web"]) "p" "r").error =
        none ∧
      names.length =
        [ServiceDescriptor.mk "projects/p/locations/r/services/api",
          ServiceDescriptor.mk "projects/p/locations/r/services/web"].length ∧
      List.Forall₂ (fun d n => isTextAfterLastSlash d.name n)
        [ServiceDescriptor.mk "projects/p/locations/r/services/api",
          ServiceDescriptor.mk "projects/p/locations/r/services/web"] names :=
  C1_success_lists_last_segments_in_order
    (okProvider [ServiceDescriptor.mk "projects/p/locations/r/services/api",
      ServiceDescriptor.mk "projects/p/locations/r/services/web"]) "p" "r"
    [ServiceDescriptor.mk "projects/p/locations/r/services/api",
      ServiceDescriptor.mk "projects/p/locations/r/services/web"] rfl (by decide)

/-- C2: a provider permission fault yields a result whose `error` is the
fixed guidance message, which mentions the Cloud Run Viewer role and
does not depend on the arguments. -/
theorem C2_permission_denied_failure
    (provider : String → ProviderOutcome) (project_id region : String)
    (hprov : provider (scopeString project_id region) =
      ProviderOutcome.permissionDenied) :
    (list_cloud_run_services provider project_id region).error =
      some permissionDeniedMessage ∧
    containsSubstring permissionDeniedMessage "Cloud Run Viewer" := by
  constructor
  · unfold list_cloud_run_services
    rw [hprov]
    rfl
  · exact ⟨"Permission denied. Please ensure the agent has the \x27".data,
      "\x27 role.".data, by decide⟩

/-- C2 witness at a concrete permission-denied provider. -/
theorem C2_witness :
    (list_cloud_run_services permissionDeniedProvider "p" "r").error =
      some permissionDeniedMessage ∧
    containsSubstring permissionDeniedMessage "Cloud Run Viewer" :=
  C2_permission_denied_failure permissionDeniedProvider "p" "r" rfl

/-- C3: a provider not-found fault yields a result whose `error` message
contains both the requested project id and the requested region. -/
theorem C3_not_found_failure
    (provider : String → ProviderOutcome) (project_id region : String)
    (hprov : provider (scopeString project_id region) = ProviderOutcome.notFound) :
    ∃ msg : String,
      (list_cloud_run_services provider project_id region).error = some msg ∧
      containsSubstring msg project_id ∧ containsSubstring msg region := by
  refine ⟨notFoundMessage project_id region, ?_, ?_, ?_⟩
  · unfold list_cloud_run_services
    rw [hprov]
    rfl
  · refine ⟨"Project \x27".data,
      ("\x27 or region \x27" ++ region ++ "\x27 not found.").data, ?_⟩
    simp [notFoundMessage, String.data_append, List.append_assoc]
  · refine ⟨("Project \x27" ++ project_id ++ "\x27 or region \x27").data,
      "\x27 not found.".data, ?_⟩
    simp [notFoundMessage, String.data_append, List.append_assoc]

/-- C3 witness at project p1 and region r1. -/
theorem C3_witness :
    ∃ msg : String,
      (list_cloud_run_services notFoundProvider "p1" "r1").error = some msg ∧
      containsSubstring msg "p1" ∧ containsSubstring msg "r1" :=
  C3_not_found_failure notFoundProvider "p1" "r1" rfl

/-- C4: any other provider fault yields a result whose `error` message
contains the fault's own description text. -/
theorem C4_unexpected_failure
    (provider : String → ProviderOutcome) (project_id region description : String)
    (hprov : provider (scopeString project_id region) =
      ProviderOutcome.unexpected description) :
    ∃ msg : String,
      (list_cloud_run_services provider project_id region).error = some msg ∧
      containsSubstring msg description := by
  refine ⟨unexpectedMessage description, ?_, ?_⟩
  · unfold list_cloud_run_services
    rw [hprov]
    rfl
  · refine ⟨"An unexpected error occurred: ".data, [], ?_⟩
    simp [unexpectedMessage, String.data_append]

/-- C4 witness at a generic fault with description boom. -/
theorem C4_witness :
    ∃ msg : String,
      (list_cloud_run_services (unexpectedProvider "boom") "p" "r").error =
        some msg ∧
      containsSubstring msg "boom" :=
  C4_unexpected_failure (unexpectedProvider "boom") "p" "r" "boom" rfl

/-- C5: every provider fault is converted at the tool boundary into a
structured failure value carrying only an `error` message; nothing
escapes the function. -/
theorem C5_faults_contained_as_failures
    (provider : String → ProviderOutcome) (project_id region : String)
    (hfault : (provider (scopeString project_id region)).isFault = true) :
    ∃ msg : String,
      list_cloud_run_services provider project_id region =
        { services := none, message := none, error := some msg } := by
  unfold list_cloud_run_services
  cases hout : provider (scopeString project_id region) with
  | ok s =>
    rw [hout] at hfault
    exact absurd hfault (by simp [ProviderOutcome.isFault])
  | permissionDenied => exact ⟨permissionDeniedMessage, rfl⟩
  | notFound => exact ⟨notFoundMessage project_id region, rfl⟩
  | unexpected d => exact ⟨unexpectedMessage d, rfl⟩

/-- C5 witness at a concrete faulting provider. -/
theorem C5_witness :
    ∃ msg : String,
      list_cloud_run_services permissionDeniedProvider "p" "r" =
        { services := none, message := none, error := some msg } :=
  C5_faults_contained_as_failures permissionDeniedProvider "p" "r" rfl

/-- C6: a provider returning zero descriptors yields a success result
with an empty services list, the informational note, and no error. -/
theorem C6_empty_listing_is_success
    (provider : String → ProviderOutcome) (project_id region : String)
    (hprov : provider (scopeString project_id region) = ProviderOutcome.ok []) :
    list_cloud_run_services provider project_id region =
      { services := some [], message := some "No Cloud Run services found.",
        error := none } := by
  unfold list_cloud_run_services
  rw [hprov]
  rfl

/-- C6 witness at a provider returning no descriptors. -/
theorem C6_witness :
    list_cloud_run_services (okProvider []) "p" "r" =
      { services := some [], message := some "No Cloud Run services found.",
        error := none } :=
  C6_empty_listing_is_success (okProvider []) "p" "r" rfl

/-- C7: every result is a tagged union: either a success carrying the
`services` key and no `error`, or a failure carrying the `error` key and
no `services`; never both. -/
theorem C7_result_is_tagged_union
    (provider : String → ProviderOutcome) (project_id region : String) :
    ((list_cloud_run_services provider project_id region).services.isSome = true ∧
      (list_cloud_run_services provider project_id region).error = none) ∨
    ((list_cloud_run_services provider project_id region).error.isSome = true ∧
      (list_cloud_run_services provider project_id region).services = none) := by
  unfold list_cloud_run_services
  cases provider (scopeString project_id region) with
  | ok s =>
    left
    simp only [handleOutcome]
    by_cases he : (s.map fun service => shortName service.name).isEmpty
    · rw [if_pos he]
      exact ⟨rfl, rfl⟩
    · rw [if_neg he]
      exact ⟨rfl, rfl⟩
  | permissionDenied => right; exact ⟨rfl, rfl⟩
  | notFound => right; exact ⟨rfl, rfl⟩
  | unexpected d => right; exact ⟨rfl, rfl⟩

/-- C8: the short-name extraction returns a string without a slash
unchanged, and otherwise returns exactly the text after the last slash. -/
theorem C8_short_name_extraction_total :
    (∀ s : String, (Char.ofNat 47) ∉ s.data → shortName s = s) ∧
    (∀ s : String, (Char.ofNat 47) ∈ s.data →
      isTextAfterLastSlash s (shortName s)) :=
  ⟨shortName_of_no_slash, shortName_after_last_slash⟩

/-- C8 witness at a slashless name and at a well-formed resource name. -/
theorem C8_witness :
    shortName "frontend" = "frontend" ∧
    isTextAfterLastSlash "projects/p/locations/r/services/frontend"
      (shortName "projects/p/locations/r/services/frontend") :=
  ⟨C8_short_name_extraction_total.1 "frontend" (by decide),
    C8_short_name_extraction_total.2
      "projects/p/locations/r/services/frontend" (by decide)⟩

/-- C9: the result is a function of the provider's response at the
queried scope alone, so two calls with identical arguments against an
unchanged provider state yield identical results. -/
theorem C9_idempotent_under_unchanged_provider
    (p q : String → ProviderOutcome) (project_id region : String)
    (h : p (scopeString project_id region) = q (scopeString project_id region)) :
    list_cloud_run_services p project_id region =
      list_cloud_run_services q project_id region := by
  unfold list_cloud_run_services
  rw [h]

/-- C9 witness at two identical calls. -/
theorem C9_witness :
    list_cloud_run_services notFoundProvider "p" "r" =
      list_cloud_run_services notFoundProvider "p" "r" :=
  C9_idempotent_under_unchanged_provider notFoundProvider notFoundProvider
    "p" "r" rfl

/-- C10: no local argument validation: for every pair of strings the
tool builds the scope string and consults the provider, and when the
provider succeeds the result carries no error. -/
theorem C10_no_local_validation
    (provider : String → ProviderOutcome) (project_id region : String) :
    list_cloud_run_services provider project_id region =
      handleOutcome project_id region
        (provider ("projects/" ++ project_id ++ "/locations/" ++ region)) ∧
    ∀ descs : List ServiceDescriptor,
      provider ("projects/" ++ project_id ++ "/locations/" ++ region) =
        ProviderOutcome.ok descs →
      (list_cloud_run_services provider project_id region).error = none := by
  constructor
  · rfl
  · intro descs hprov
    unfold list_cloud_run_services
    rw [show scopeString project_id region =
      "projects/" ++ project_id ++ "/locations/" ++ region from rfl, hprov]
    simp only [handleOutcome]
    by_cases he : (descs.map fun service => shortName service.name).isEmpty
    · rw [if_pos he]
    · rw [if_neg he]

/-- C10 witness at empty argument strings and a succeeding provider. -/
theorem C10_witness :
    list_cloud_run_services (okProvider []) "" "" =
      handleOutcome "" "" (okProvider [] ("projects/" ++ "" ++ "/locations/" ++ "")) ∧
    (list_cloud_run_services (okProvider []) "" "").error = none :=
  ⟨(C10_no_local_validation (okProvider []) "" "").1,
    (C10_no_local_validation (okProvider []) "" "").2 [] rfl⟩

end GcpDevopsAgent
